import Mathlib

/-!
Shallow embedding of the training script of cookiecutter-pyml
(file train.py: reload_model, write_stats, load_stats, train,
pytorch_train_impl).

Modelling choices:
- Metrics are rationals: the dev metric is correct / examples, a ratio of
  machine integers, and the comparisons in the script are exact.
- The output directory is an explicit record FS: the content of
  best_model.pt (an opaque snapshot, modelled as the epoch at which it was
  saved), the content of stats.yaml (the two-key record written by
  write_stats), and whether the directory exists.
- The numeric phases (the per-batch forward/backward loop and the
  evaluation loop) are opaque collaborators: an Oracle gives, for each
  epoch index, the outcome of the training phase (an average loss, or a
  raised RuntimeError message) and the dev metric computed by the
  evaluation phase.
- The for-range loop of pytorch_train_impl is embedded as structural
  recursion on the trip count max_epoch - start_epoch, with the epoch
  index carried explicitly; lastEpoch models the Python loop variable
  binding (none when the loop body never ran, which makes the log line
  after the loop raise NameError).
- mlflow log_metric calls are accumulated in an event list (sink);
  orion report_results is the reported field of the final outcome.
-/

namespace TrainPy

/-- Decidable equality of Except results, so that concrete runs can be
checked by evaluation. -/
instance {ε α : Type} [DecidableEq ε] [DecidableEq α] : DecidableEq (Except ε α)
  | Except.ok x, Except.ok y =>
    if h : x = y then Decidable.isTrue (by rw [h])
    else Decidable.isFalse (by intro hc; cases hc; exact h rfl)
  | Except.ok x, Except.error y => Decidable.isFalse (fun hc => Except.noConfusion hc)
  | Except.error x, Except.ok y => Decidable.isFalse (fun hc => Except.noConfusion hc)
  | Except.error x, Except.error y =>
    if h : x = y then Decidable.isTrue (by rw [h])
    else Decidable.isFalse (by intro hc; cases hc; exact h rfl)

/-- The persisted stats.yaml record: exactly the two keys written by
write_stats, best_dev_metric and epoch. -/
structure Stats where
  best_dev_metric : Option ℚ
  epoch : ℕ
deriving DecidableEq, Repr

/-- On-disk state of the output directory: content of best_model.pt
(none when absent; the saved snapshot is abstracted as the epoch at which
torch.save ran), content of stats.yaml (none when absent), and whether the
directory itself exists. -/
structure FS where
  savedModel : Option ℕ
  statsFile : Option Stats
  outputDirExists : Bool
deriving DecidableEq, Repr

/-- Errors of the script. StateMissingError models the FileNotFoundError
raised by open() in load_stats when best_model.pt exists but stats.yaml
does not; NameErrorEpochUnbound models the NameError raised by the log
line after the loop when the loop variable epoch was never bound;
RuntimeError carries the message of a torch RuntimeError raised during
the training phase. Neither FileNotFoundError nor NameError is a
RuntimeError in Python, so only the RuntimeError variant is catchable by
the except clause in train. -/
inductive TrainError where
  | StateMissingError : TrainError
  | NameErrorEpochUnbound : TrainError
  | RuntimeError : String → TrainError
deriving DecidableEq, Repr

/-- write_stats: dump best_dev_metric and epoch to stats.yaml, fully
replacing prior content. -/
def write_stats (fs : FS) (best : Option ℚ) (epoch : ℕ) : FS :=
  { fs with statsFile := some ⟨best, epoch⟩ }

/-- torch.save of the model parameters to best_model.pt, overwriting any
prior snapshot; the snapshot is abstracted as the current epoch. -/
def save_model (fs : FS) (snapshot : ℕ) : FS :=
  { fs with savedModel := some snapshot }

/-- load_stats: read stats.yaml; open() raises FileNotFoundError when the
file is absent. -/
def load_stats (fs : FS) : Except TrainError Stats :=
  match fs.statsFile with
  | some s => Except.ok s
  | none => Except.error TrainError.StateMissingError

/-- reload_model: the initialization decision of the Checkpoint Manager.
Returns (stats result, disk state after, whether saved parameters were
loaded into the model object). -/
def reload_model (fs : FS) (start_from_scratch : Bool) :
    Except TrainError (Option Stats × FS × Bool) :=
  if start_from_scratch && fs.savedModel.isSome then
    Except.ok (none, fs, false)
  else if fs.savedModel.isSome then
    match load_stats fs with
    | Except.error e => Except.error e
    | Except.ok s => Except.ok (some s, fs, true)
  else if fs.outputDirExists then
    Except.ok (none, fs, false)
  else
    Except.ok (none, { fs with outputDirExists := true }, false)

/-- The opaque numeric collaborators, indexed by epoch: trainPhase e is
the outcome of the per-batch training loop at epoch e (average loss, or
the message of a raised RuntimeError); devMetric e is the dev metric the
evaluation phase computes at epoch e. -/
structure Oracle where
  trainPhase : ℕ → Except String ℚ
  devMetric : ℕ → ℚ

/-- One mlflow log_metric emission: metric name and value. -/
abbrev SinkEvent := String × Option ℚ

/-- Trace record of one completed epoch of the loop body: the epoch
index, the best_dev_metric before the improvement check, the dev metric
of this epoch, whether the model was saved (the improvement branch),
not_improving_since after this epoch, and the stats record written by
write_stats at the end of this epoch. -/
structure EpochLog where
  epoch : ℕ
  bestBefore : Option ℚ
  devMetric : ℚ
  saved : Bool
  streakAfter : ℕ
  written : Stats
deriving DecidableEq, Repr

/-- Mutable state of the epoch loop: best_dev_metric,
not_improving_since, the disk, the trace of completed epochs, the mlflow
emissions so far, and the current binding of the Python loop variable. -/
structure LoopSt where
  best : Option ℚ
  streak : ℕ
  fs : FS
  logs : List EpochLog
  sink : List SinkEvent
  lastEpoch : Option ℕ
deriving DecidableEq, Repr

/-- How the epoch loop was left: range exhausted, break on patience, or a
RuntimeError raised by the training phase. -/
inductive LoopExit where
  | maxReached : LoopExit
  | patienceBreak : LoopExit
  | raised : String → LoopExit
deriving DecidableEq, Repr

/-- The improvement condition of line 136:
best_dev_metric is None or dev_metric > best_dev_metric. -/
def isImprovement (best : Option ℚ) (dm : ℚ) : Bool :=
  match best with
  | none => true
  | some b => decide (b < dm)

/-- The trace entry produced by one completed epoch: improvement check on
the current best, updated streak, and the stats record that write_stats
persists (best after the check, epoch + 1). -/
def stepEntry (orc : Oracle) (epoch : ℕ) (st : LoopSt) : EpochLog :=
  let dm := orc.devMetric epoch
  let impv := isImprovement st.best dm
  ⟨epoch, st.best, dm, impv, if impv then 0 else st.streak + 1,
   ⟨if impv then some dm else st.best, epoch + 1⟩⟩

/-- The body of one successfully completed epoch (training phase already
done, with average loss avgLoss): evaluation emissions, improvement
check, model save on improvement, streak update, write_stats with
epoch + 1, and the trace entry. -/
def epochStep (orc : Oracle) (epoch : ℕ) (avgLoss : ℚ) (st : LoopSt) : LoopSt :=
  let e := stepEntry orc epoch st
  ⟨e.written.best_dev_metric, e.streakAfter,
   write_stats (if e.saved then save_model st.fs epoch else st.fs)
     e.written.best_dev_metric (epoch + 1),
   st.logs ++ [e],
   st.sink ++ [("dev_metric", some e.devMetric), ("loss", some avgLoss)],
   st.lastEpoch⟩

/-- The for-range loop of pytorch_train_impl, by recursion on the number
of remaining epochs (fuel = max_epoch - epoch). Each iteration first
binds the loop variable, then runs the training phase (where a
RuntimeError may be raised), then the completed-epoch body, then the
patience check of line 152. -/
def loopGo (orc : Oracle) (patience : ℕ) : ℕ → ℕ → LoopSt → LoopSt × LoopExit
  | 0, _, st => (st, LoopExit.maxReached)
  | fuel + 1, epoch, st =>
    let st0 := { st with lastEpoch := some epoch }
    match orc.trainPhase epoch with
    | Except.error msg => (st0, LoopExit.raised msg)
    | Except.ok avgLoss =>
      let st1 := epochStep orc epoch avgLoss st0
      if patience ≤ st1.streak then (st1, LoopExit.patienceBreak)
      else loopGo orc patience fuel (epoch + 1) st1

/-- How a run of pytorch_train_impl ended: normal return (with its stop
reason), NameError at the post-loop log line, a RuntimeError escaping
from the training phase, or an error from reload_model. -/
inductive StopReason where
  | MaxEpochReached : StopReason
  | PatienceExhausted : StopReason
deriving DecidableEq, Repr

inductive ImplOutcome where
  | ok : StopReason → ImplOutcome
  | nameError : ImplOutcome
  | raised : String → ImplOutcome
  | reloadError : TrainError → ImplOutcome
deriving DecidableEq, Repr

/-- Full instrumented run of pytorch_train_impl: the (start_epoch,
best_dev_metric) pair the loop began with, the per-epoch trace, the
mlflow emissions, the final best_dev_metric variable, the final disk
state, and the outcome. -/
structure ImplRun where
  start : ℕ × Option ℚ
  logs : List EpochLog
  sink : List SinkEvent
  best : Option ℚ
  fs : FS
  outcome : ImplOutcome
deriving DecidableEq, Repr

/-- The (start_epoch, best_dev_metric) pair lines 86-91 derive from the
result of reload_model. -/
def startOf (statsOpt : Option Stats) : ℕ × Option ℚ :=
  match statsOpt with
  | some s => (s.epoch, s.best_dev_metric)
  | none => (0, none)

/-- Loop state at entry of the for loop: resumed best, streak 0, the disk
as reload_model left it, empty traces, loop variable unbound. -/
def initSt (statsOpt : Option Stats) (fs1 : FS) : LoopSt :=
  ⟨(startOf statsOpt).2, 0, fs1, [], [], none⟩

/-- The post-loop lines 155-156 on normal loop exit: the log line
referencing the loop variable (NameError when it was never bound), then
log_metric of best_dev_metric. -/
def afterLoop (start : ℕ × Option ℚ) (st : LoopSt) (stop : StopReason) : ImplRun :=
  match st.lastEpoch with
  | none => ⟨start, st.logs, st.sink, st.best, st.fs, ImplOutcome.nameError⟩
  | some _ =>
    ⟨start, st.logs, st.sink ++ [("best_dev_metric", st.best)], st.best, st.fs,
     ImplOutcome.ok stop⟩

/-- Wrap up the loop result: a raised RuntimeError escapes before the
post-loop lines; both normal exits (range exhausted, patience break) fall
through to them. -/
def finishRun (start : ℕ × Option ℚ) (res : LoopSt × LoopExit) : ImplRun :=
  match res.2 with
  | LoopExit.raised msg =>
    ⟨start, res.1.logs, res.1.sink, res.1.best, res.1.fs, ImplOutcome.raised msg⟩
  | LoopExit.maxReached => afterLoop start res.1 StopReason.MaxEpochReached
  | LoopExit.patienceBreak => afterLoop start res.1 StopReason.PatienceExhausted

/-- pytorch_train_impl, instrumented: reload_model, then the epoch loop
from the resumed (or zero) epoch, then the post-loop lines. -/
def implRun (orc : Oracle) (patience max_epoch : ℕ) (fs : FS)
    (start_from_scratch : Bool) : ImplRun :=
  match reload_model fs start_from_scratch with
  | Except.error e => ⟨(0, none), [], [], none, fs, ImplOutcome.reloadError e⟩
  | Except.ok (statsOpt, fs1, _) =>
    finishRun (startOf statsOpt)
      (loopGo orc patience (max_epoch - (startOf statsOpt).1) (startOf statsOpt).1
        (initSt statsOpt fs1))

/-- pytorch_train_impl as the caller sees it: the returned
best_dev_metric and the disk state, or the raised error. -/
def pytorch_train_impl (orc : Oracle) (patience max_epoch : ℕ) (fs : FS)
    (start_from_scratch : Bool) : Except TrainError (Option ℚ × FS) :=
  let r := implRun orc patience max_epoch fs start_from_scratch
  match r.outcome with
  | ImplOutcome.ok _ => Except.ok (r.best, r.fs)
  | ImplOutcome.nameError => Except.error TrainError.NameErrorEpochUnbound
  | ImplOutcome.raised msg => Except.error (TrainError.RuntimeError msg)
  | ImplOutcome.reloadError e => Except.error e

/-- The substring test of line 61: the text CUDA out of memory occurs in
str(err). -/
def oomMessage (msg : String) : Bool :=
  decide (("CUDA out of memory".toList) <:+: msg.toList)

/-- Observable outcome of a completed train call: the mlflow emissions,
the final best_dev_metric, the objective value passed to orion
report_results, and the disk state. -/
structure TrainOutcome where
  sink : List SinkEvent
  best : Option ℚ
  reported : Option ℚ
  fs : FS
deriving DecidableEq, Repr

/-- train: run pytorch_train_impl; a RuntimeError is caught exactly when
orion is on and the message contains CUDA out of memory, in which case
best_dev_metric is replaced by -999; the objective reported to orion is
the negation of best_dev_metric. All other errors propagate. -/
def train (orc : Oracle) (patience max_epoch : ℕ) (fs : FS)
    (start_from_scratch : Bool) (isOrionOn : Bool) : Except TrainError TrainOutcome :=
  let r := implRun orc patience max_epoch fs start_from_scratch
  match r.outcome with
  | ImplOutcome.ok _ =>
    Except.ok ⟨r.sink, r.best, r.best.map (fun b => -b), r.fs⟩
  | ImplOutcome.raised msg =>
    if isOrionOn && oomMessage msg then
      Except.ok ⟨r.sink, some (-999 : ℚ), (some (-999 : ℚ)).map (fun b => -b), r.fs⟩
    else Except.error (TrainError.RuntimeError msg)
  | ImplOutcome.nameError => Except.error TrainError.NameErrorEpochUnbound
  | ImplOutcome.reloadError e => Except.error e

/-- The best_dev_metric values written to stats.yaml along a trace, in
order. -/
def writtenBests (logs : List EpochLog) : List (Option ℚ) :=
  logs.map (fun l => l.written.best_dev_metric)

/-- Order on optional metrics: absent is below everything; two present
values compare as rationals. Written stats never decrease in this
order. -/
def optLE : Option ℚ → Option ℚ → Prop
  | none, _ => True
  | some _, none => False
  | some x, some y => x ≤ y

instance : (a b : Option ℚ) → Decidable (optLE a b)
  | none, _ => Decidable.isTrue trivial
  | some _, none => Decidable.isFalse (fun h => h)
  | some x, some y => inferInstanceAs (Decidable (x ≤ y))

/-- One process invocation in a sequence of resumed runs over the same
output directory: its numeric oracles and configuration. -/
structure Segment where
  orc : Oracle
  patience : ℕ
  maxEpoch : ℕ

/-- The best_dev_metric values written to stats.yaml across a sequence of
process invocations over the same output directory, every invocation
after the first resuming with start_from_scratch = false. -/
def chainedWrites : Bool → List Segment → FS → List (Option ℚ)
  | _, [], _ => []
  | sfs, seg :: rest, fs =>
    let r := implRun seg.orc seg.patience seg.maxEpoch fs sfs
    writtenBests r.logs ++ chainedWrites false rest r.fs

/-! ### Order on optional metrics -/

lemma optLE_refl (a : Option ℚ) : optLE a a := by
  cases a with
  | none => trivial
  | some x => exact le_refl x

lemma optLE_trans {a b c : Option ℚ} (h1 : optLE a b) (h2 : optLE b c) : optLE a c := by
  cases a with
  | none => trivial
  | some x =>
    cases b with
    | none => exact h1.elim
    | some y =>
      cases c with
      | none => exact h2.elim
      | some z => exact le_trans h1 h2

/-! ### Properties of one epoch step -/

lemma isImprovement_false_isSome {best : Option ℚ} {dm : ℚ}
    (h : isImprovement best dm = false) : best.isSome = true := by
  cases best with
  | none => simp [isImprovement] at h
  | some b => rfl

lemma stepEntry_written_isSome (orc : Oracle) (epoch : ℕ) (st : LoopSt) :
    ((stepEntry orc epoch st).written.best_dev_metric).isSome = true := by
  simp only [stepEntry]
  cases h : isImprovement st.best (orc.devMetric epoch) with
  | true => simp
  | false => simpa using isImprovement_false_isSome h

lemma stepEntry_best_mono (orc : Oracle) (epoch : ℕ) (st : LoopSt) :
    optLE st.best ((stepEntry orc epoch st).written.best_dev_metric) := by
  simp only [stepEntry]
  cases h : isImprovement st.best (orc.devMetric epoch) with
  | false => simpa [h] using optLE_refl st.best
  | true =>
    simp only [h, if_true]
    cases hb : st.best with
    | none => trivial
    | some b =>
      rw [hb] at h
      have hlt : b < orc.devMetric epoch := by simpa [isImprovement] using h
      exact le_of_lt hlt

/-- The structural facts true of every trace entry the loop produces,
relative to the best_dev_metric value b0 the loop started from: the
persisted epoch field is the epoch plus one, the dev metric is the
oracle's, the model is saved exactly on the improvement condition, the
persisted best is the new best, written bests are present and at least
b0, and the streak is reset exactly on improvement. -/
def GoodEntry (orc : Oracle) (b0 : Option ℚ) (l : EpochLog) : Prop :=
  l.written.epoch = l.epoch + 1 ∧
  l.devMetric = orc.devMetric l.epoch ∧
  l.saved = isImprovement l.bestBefore l.devMetric ∧
  l.written.best_dev_metric = (if l.saved = true then some l.devMetric else l.bestBefore) ∧
  (l.written.best_dev_metric).isSome = true ∧
  (l.saved = true → l.streakAfter = 0) ∧
  (l.saved = false → 0 < l.streakAfter) ∧
  optLE b0 l.written.best_dev_metric

lemma goodEntry_mono {orc : Oracle} {b0 b1 : Option ℚ} {l : EpochLog}
    (h01 : optLE b0 b1) (h : GoodEntry orc b1 l) : GoodEntry orc b0 l := by
  obtain ⟨h1, h2, h3, h4, h5, h6, h7, h8⟩ := h
  exact ⟨h1, h2, h3, h4, h5, h6, h7, optLE_trans h01 h8⟩

lemma stepEntry_good (orc : Oracle) (epoch : ℕ) (st : LoopSt) :
    GoodEntry orc st.best (stepEntry orc epoch st) := by
  refine ⟨rfl, rfl, rfl, ?_, stepEntry_written_isSome orc epoch st, ?_, ?_,
    stepEntry_best_mono orc epoch st⟩ <;>
    simp only [stepEntry] <;>
    cases h : isImprovement st.best (orc.devMetric epoch) <;> simp [h]

lemma epochStep_best (orc : Oracle) (e : ℕ) (a : ℚ) (st : LoopSt) :
    (epochStep orc e a st).best = (stepEntry orc e st).written.best_dev_metric := rfl

lemma epochStep_streak (orc : Oracle) (e : ℕ) (a : ℚ) (st : LoopSt) :
    (epochStep orc e a st).streak = (stepEntry orc e st).streakAfter := rfl

lemma epochStep_logs (orc : Oracle) (e : ℕ) (a : ℚ) (st : LoopSt) :
    (epochStep orc e a st).logs = st.logs ++ [stepEntry orc e st] := rfl

lemma epochStep_sink (orc : Oracle) (e : ℕ) (a : ℚ) (st : LoopSt) :
    (epochStep orc e a st).sink =
      st.sink ++ [("dev_metric", some (stepEntry orc e st).devMetric), ("loss", some a)] := rfl

lemma epochStep_lastEpoch (orc : Oracle) (e : ℕ) (a : ℚ) (st : LoopSt) :
    (epochStep orc e a st).lastEpoch = st.lastEpoch := rfl

lemma epochStep_fs_statsFile (orc : Oracle) (e : ℕ) (a : ℚ) (st : LoopSt) :
    (epochStep orc e a st).fs.statsFile = some (stepEntry orc e st).written := rfl

lemma epochStep_best_mono (orc : Oracle) (e : ℕ) (a : ℚ) (st : LoopSt) :
    optLE st.best (epochStep orc e a st).best :=
  stepEntry_best_mono orc e st

lemma epochStep_best_isSome (orc : Oracle) (e : ℕ) (a : ℚ) (st : LoopSt) :
    ((epochStep orc e a st).best).isSome = true :=
  stepEntry_written_isSome orc e st

lemma epochStep_savedModel (orc : Oracle) (e : ℕ) (a : ℚ) (st : LoopSt)
    (h : st.best.isSome = true → st.fs.savedModel.isSome = true) :
    ((epochStep orc e a st).fs.savedModel).isSome = true := by
  simp only [epochStep, stepEntry, write_stats, save_model]
  cases himp : isImprovement st.best (orc.devMetric e) with
  | true => simp [himp]
  | false => simpa [himp] using h (isImprovement_false_isSome himp)

lemma epochStep_savedModel_mono (orc : Oracle) (e : ℕ) (a : ℚ) (st : LoopSt)
    (h : st.fs.savedModel.isSome = true) :
    ((epochStep orc e a st).fs.savedModel).isSome = true := by
  simp only [epochStep, stepEntry, write_stats, save_model]
  cases himp : isImprovement st.best (orc.devMetric e) with
  | true => simp [himp]
  | false => simpa [himp] using h

/-! ### Loop invariants -/

lemma loopGo_mem (orc : Oracle) (p : ℕ) :
    ∀ (fuel epoch : ℕ) (st : LoopSt),
      ∀ l ∈ (loopGo orc p fuel epoch st).1.logs,
        l ∈ st.logs ∨ GoodEntry orc st.best l := by
  intro fuel
  induction fuel with
  | zero => intro epoch st l hl; exact Or.inl hl
  | succ n ih =>
    intro epoch st l hl
    rw [loopGo] at hl
    cases htp : orc.trainPhase epoch with
    | error msg => rw [htp] at hl; exact Or.inl hl
    | ok avgLoss =>
      rw [htp] at hl
      dsimp only at hl
      by_cases hbr :
          p ≤ (epochStep orc epoch avgLoss { st with lastEpoch := some epoch }).streak
      · rw [if_pos hbr] at hl
        rw [epochStep_logs] at hl
        rcases List.mem_append.mp hl with h | h
        · exact Or.inl h
        · rw [List.mem_singleton.mp h]
          exact Or.inr (stepEntry_good orc epoch _)
      · rw [if_neg hbr] at hl
        rcases ih (epoch + 1) _ l hl with h | h
        · rw [epochStep_logs] at h
          rcases List.mem_append.mp h with h2 | h2
          · exact Or.inl h2
          · rw [List.mem_singleton.mp h2]
            exact Or.inr (stepEntry_good orc epoch _)
        · exact Or.inr (goodEntry_mono (epochStep_best_mono orc epoch avgLoss _) h)

lemma loopGo_logs_append (orc : Oracle) (p : ℕ) :
    ∀ (fuel epoch : ℕ) (st : LoopSt),
      ∃ t, (loopGo orc p fuel epoch st).1.logs = st.logs ++ t := by
  intro fuel
  induction fuel with
  | zero => intro e st; exact ⟨[], (List.append_nil _).symm⟩
  | succ n ih =>
    intro e st
    rw [loopGo]
    cases htp : orc.trainPhase e with
    | error msg => exact ⟨[], (List.append_nil _).symm⟩
    | ok avgLoss =>
      dsimp only
      by_cases hbr :
          p ≤ (epochStep orc e avgLoss { st with lastEpoch := some e }).streak
      · rw [if_pos hbr]
        exact ⟨[stepEntry orc e { st with lastEpoch := some e }],
          epochStep_logs orc e avgLoss _⟩
      · rw [if_neg hbr]
        obtain ⟨t, ht⟩ := ih (e + 1) (epochStep orc e avgLoss { st with lastEpoch := some e })
        refine ⟨[stepEntry orc e { st with lastEpoch := some e }] ++ t, ?_⟩
        rw [ht, epochStep_logs, List.append_assoc]

lemma loopGo_streak (orc : Oracle) (p : ℕ) :
    ∀ (fuel epoch : ℕ) (st : LoopSt),
      (∀ l ∈ st.logs, l.streakAfter < p) →
      ∀ l ∈ ((loopGo orc p fuel epoch st).1.logs).dropLast, l.streakAfter < p := by
  intro fuel
  induction fuel with
  | zero => intro e st h l hl; exact h l (List.dropLast_subset _ hl)
  | succ n ih =>
    intro e st h l hl
    rw [loopGo] at hl
    cases htp : orc.trainPhase e with
    | error msg => rw [htp] at hl; exact h l (List.dropLast_subset _ hl)
    | ok avgLoss =>
      rw [htp] at hl
      dsimp only at hl
      by_cases hbr :
          p ≤ (epochStep orc e avgLoss { st with lastEpoch := some e }).streak
      · rw [if_pos hbr] at hl
        rw [epochStep_logs, List.dropLast_concat] at hl
        exact h l hl
      · rw [if_neg hbr] at hl
        refine ih (e + 1) _ ?_ l hl
        intro l2 hl2
        rw [epochStep_logs] at hl2
        rcases List.mem_append.mp hl2 with h2 | h2
        · exact h l2 h2
        · rw [List.mem_singleton.mp h2]
          have hlt := not_le.mp hbr
          rw [epochStep_streak] at hlt
          exact hlt

/-- Invariant: the last trace entry holds exactly the record on disk, and
its persisted best is the loop's current best. -/
def LastWrittenInv (s : LoopSt) : Prop :=
  ∀ l, s.logs.getLast? = some l →
    s.fs.statsFile = some l.written ∧ l.written.best_dev_metric = s.best

lemma epochStep_lastWrittenInv (orc : Oracle) (e : ℕ) (a : ℚ) (st : LoopSt) :
    LastWrittenInv (epochStep orc e a st) := by
  intro l hl
  rw [epochStep_logs, List.getLast?_concat] at hl
  injection hl with hl
  rw [← hl]
  exact ⟨epochStep_fs_statsFile orc e a st, (epochStep_best orc e a st).symm⟩

lemma loopGo_lastWritten (orc : Oracle) (p : ℕ) :
    ∀ (fuel epoch : ℕ) (st : LoopSt),
      LastWrittenInv st → LastWrittenInv (loopGo orc p fuel epoch st).1 := by
  intro fuel
  induction fuel with
  | zero => intro e st h; exact h
  | succ n ih =>
    intro e st h
    rw [loopGo]
    cases htp : orc.trainPhase e with
    | error msg => exact h
    | ok avgLoss =>
      dsimp only
      by_cases hbr :
          p ≤ (epochStep orc e avgLoss { st with lastEpoch := some e }).streak
      · rw [if_pos hbr]
        exact epochStep_lastWrittenInv orc e avgLoss _
      · rw [if_neg hbr]
        exact ih (e + 1) _ (epochStep_lastWrittenInv orc e avgLoss _)

/-- Invariant: a present best metric means a saved model on disk. -/
def BestModelInv (s : LoopSt) : Prop :=
  s.best.isSome = true → s.fs.savedModel.isSome = true

lemma loopGo_bestModel (orc : Oracle) (p : ℕ) :
    ∀ (fuel epoch : ℕ) (st : LoopSt),
      BestModelInv st → BestModelInv (loopGo orc p fuel epoch st).1 := by
  intro fuel
  induction fuel with
  | zero => intro e st h; exact h
  | succ n ih =>
    intro e st h
    rw [loopGo]
    cases htp : orc.trainPhase e with
    | error msg => exact h
    | ok avgLoss =>
      dsimp only
      by_cases hbr :
          p ≤ (epochStep orc e avgLoss { st with lastEpoch := some e }).streak
      · rw [if_pos hbr]
        exact fun _ => epochStep_savedModel orc e avgLoss _ h
      · rw [if_neg hbr]
        exact ih (e + 1) _ (fun _ => epochStep_savedModel orc e avgLoss _ h)

lemma loopGo_same (orc : Oracle) (p : ℕ) :
    ∀ (fuel epoch : ℕ) (st : LoopSt),
      (loopGo orc p fuel epoch st).1.logs = st.logs →
      (loopGo orc p fuel epoch st).1.fs = st.fs ∧
      (loopGo orc p fuel epoch st).1.best = st.best := by
  intro fuel
  induction fuel with
  | zero => intro e st _; exact ⟨rfl, rfl⟩
  | succ n ih =>
    intro e st
    rw [loopGo]
    cases htp : orc.trainPhase e with
    | error msg => intro _; exact ⟨rfl, rfl⟩
    | ok avgLoss =>
      dsimp only
      by_cases hbr :
          p ≤ (epochStep orc e avgLoss { st with lastEpoch := some e }).streak
      · rw [if_pos hbr]
        intro h
        rw [epochStep_logs] at h
        have hlen := congrArg List.length h
        simp at hlen
      · rw [if_neg hbr]
        intro h
        obtain ⟨t, ht⟩ :=
          loopGo_logs_append orc p n (e + 1) (epochStep orc e avgLoss { st with lastEpoch := some e })
        rw [ht, epochStep_logs, List.append_assoc] at h
        have hlen := congrArg List.length h
        simp at hlen

lemma loopGo_sink (orc : Oracle) (p : ℕ) :
    ∀ (fuel epoch : ℕ) (st : LoopSt),
      (∀ ev ∈ st.sink, ev.1 = "dev_metric" ∨ ev.1 = "loss") →
      ∀ ev ∈ (loopGo orc p fuel epoch st).1.sink,
        ev.1 = "dev_metric" ∨ ev.1 = "loss" := by
  intro fuel
  induction fuel with
  | zero => intro e st h; exact h
  | succ n ih =>
    intro e st h
    rw [loopGo]
    cases htp : orc.trainPhase e with
    | error msg => exact h
    | ok avgLoss =>
      dsimp only
      have hstep : ∀ ev ∈ (epochStep orc e avgLoss { st with lastEpoch := some e }).sink,
          ev.1 = "dev_metric" ∨ ev.1 = "loss" := by
        intro ev hev
        rw [epochStep_sink] at hev
        rcases List.mem_append.mp hev with h2 | h2
        · exact h ev h2
        · rcases List.mem_cons.mp h2 with h3 | h3
          · rw [h3]; exact Or.inl rfl
          · rw [List.mem_singleton.mp h3]; exact Or.inr rfl
      by_cases hbr :
          p ≤ (epochStep orc e avgLoss { st with lastEpoch := some e }).streak
      · rw [if_pos hbr]; exact hstep
      · rw [if_neg hbr]; exact ih (e + 1) _ hstep

lemma writtenBests_append (a b : List EpochLog) :
    writtenBests (a ++ b) = writtenBests a ++ writtenBests b :=
  List.map_append _ a b

lemma chain_shift {xs : List (Option ℚ)} {a b : Option ℚ}
    (h : List.Chain' optLE (xs ++ [a])) (hab : optLE a b) :
    List.Chain' optLE ((xs ++ [b]) ++ [b]) := by
  rw [List.append_assoc]
  rw [List.chain'_append] at h ⊢
  refine ⟨h.1, ?_, ?_⟩
  · exact List.chain'_cons.mpr ⟨optLE_refl b, List.chain'_singleton b⟩
  · intro x hx y hy
    have hxa := h.2.2 x hx a (by simp)
    have hyb : b = y := by simpa using hy
    rw [← hyb]
    exact optLE_trans hxa hab

/-- Invariant: the bests written so far, followed by the current best,
form a nondecreasing chain. -/
def ChainInv (s : LoopSt) : Prop :=
  List.Chain' optLE (writtenBests s.logs ++ [s.best])

lemma epochStep_chainInv (orc : Oracle) (e : ℕ) (a : ℚ) (st : LoopSt)
    (h : ChainInv st) : ChainInv (epochStep orc e a st) := by
  unfold ChainInv at h ⊢
  rw [epochStep_logs, epochStep_best, writtenBests_append]
  exact chain_shift h (stepEntry_best_mono orc e st)

lemma loopGo_chain (orc : Oracle) (p : ℕ) :
    ∀ (fuel epoch : ℕ) (st : LoopSt),
      ChainInv st → ChainInv (loopGo orc p fuel epoch st).1 := by
  intro fuel
  induction fuel with
  | zero => intro e st h; exact h
  | succ n ih =>
    intro e st h
    rw [loopGo]
    cases htp : orc.trainPhase e with
    | error msg => exact h
    | ok avgLoss =>
      dsimp only
      by_cases hbr :
          p ≤ (epochStep orc e avgLoss { st with lastEpoch := some e }).streak
      · rw [if_pos hbr]
        exact epochStep_chainInv orc e avgLoss _ h
      · rw [if_neg hbr]
        exact ih (e + 1) _ (epochStep_chainInv orc e avgLoss _ h)

lemma loopGo_ok_best (orc : Oracle) (p : ℕ) :
    ∀ (fuel epoch : ℕ) (st : LoopSt),
      (st.lastEpoch.isSome = true → st.best.isSome = true) →
      (∃ msg, (loopGo orc p fuel epoch st).2 = LoopExit.raised msg) ∨
      ((loopGo orc p fuel epoch st).1.lastEpoch.isSome = true →
       (loopGo orc p fuel epoch st).1.best.isSome = true) := by
  intro fuel
  induction fuel with
  | zero => intro e st h; exact Or.inr h
  | succ n ih =>
    intro e st h
    rw [loopGo]
    cases htp : orc.trainPhase e with
    | error msg => exact Or.inl ⟨msg, rfl⟩
    | ok avgLoss =>
      dsimp only
      by_cases hbr :
          p ≤ (epochStep orc e avgLoss { st with lastEpoch := some e }).streak
      · rw [if_pos hbr]
        exact Or.inr (fun _ => epochStep_best_isSome orc e avgLoss _)
      · rw [if_neg hbr]
        exact ih (e + 1) _ (fun _ => epochStep_best_isSome orc e avgLoss _)

/-! ### Facts about the run wrappers -/

lemma afterLoop_start (s : ℕ × Option ℚ) (st : LoopSt) (stop : StopReason) :
    (afterLoop s st stop).start = s := by
  unfold afterLoop; cases st.lastEpoch <;> rfl

lemma afterLoop_logs (s : ℕ × Option ℚ) (st : LoopSt) (stop : StopReason) :
    (afterLoop s st stop).logs = st.logs := by
  unfold afterLoop; cases st.lastEpoch <;> rfl

lemma afterLoop_best (s : ℕ × Option ℚ) (st : LoopSt) (stop : StopReason) :
    (afterLoop s st stop).best = st.best := by
  unfold afterLoop; cases st.lastEpoch <;> rfl

lemma afterLoop_fs (s : ℕ × Option ℚ) (st : LoopSt) (stop : StopReason) :
    (afterLoop s st stop).fs = st.fs := by
  unfold afterLoop; cases st.lastEpoch <;> rfl

lemma finishRun_start (s : ℕ × Option ℚ) (r : LoopSt × LoopExit) :
    (finishRun s r).start = s := by
  rcases r with ⟨st, ex⟩
  cases ex with
  | raised msg => rfl
  | maxReached => exact afterLoop_start s st _
  | patienceBreak => exact afterLoop_start s st _

lemma finishRun_logs (s : ℕ × Option ℚ) (r : LoopSt × LoopExit) :
    (finishRun s r).logs = r.1.logs := by
  rcases r with ⟨st, ex⟩
  cases ex with
  | raised msg => rfl
  | maxReached => exact afterLoop_logs s st _
  | patienceBreak => exact afterLoop_logs s st _

lemma finishRun_best (s : ℕ × Option ℚ) (r : LoopSt × LoopExit) :
    (finishRun s r).best = r.1.best := by
  rcases r with ⟨st, ex⟩
  cases ex with
  | raised msg => rfl
  | maxReached => exact afterLoop_best s st _
  | patienceBreak => exact afterLoop_best s st _

lemma finishRun_fs (s : ℕ × Option ℚ) (r : LoopSt × LoopExit) :
    (finishRun s r).fs = r.1.fs := by
  rcases r with ⟨st, ex⟩
  cases ex with
  | raised msg => rfl
  | maxReached => exact afterLoop_fs s st _
  | patienceBreak => exact afterLoop_fs s st _

lemma afterLoop_outcome_ok {s : ℕ × Option ℚ} {st : LoopSt} {stop stop2 : StopReason}
    (h : (afterLoop s st stop).outcome = ImplOutcome.ok stop2) :
    (st.lastEpoch).isSome = true ∧
    (afterLoop s st stop).sink = st.sink ++ [("best_dev_metric", st.best)] ∧
    stop2 = stop := by
  unfold afterLoop at h ⊢
  cases hle : st.lastEpoch with
  | none => rw [hle] at h; cases h
  | some k =>
    rw [hle] at h
    refine ⟨rfl, rfl, ?_⟩
    have h2 : ImplOutcome.ok stop = ImplOutcome.ok stop2 := h
    injection h2 with h2
    exact h2.symm

lemma finishRun_outcome_ok {s : ℕ × Option ℚ} {r : LoopSt × LoopExit} {stop : StopReason}
    (h : (finishRun s r).outcome = ImplOutcome.ok stop) :
    (∀ msg, r.2 ≠ LoopExit.raised msg) ∧ (r.1.lastEpoch).isSome = true ∧
    (finishRun s r).sink = r.1.sink ++ [("best_dev_metric", r.1.best)] := by
  rcases r with ⟨st, ex⟩
  cases ex with
  | raised msg => cases h
  | maxReached =>
    obtain ⟨h1, h2, h3⟩ := afterLoop_outcome_ok h
    exact ⟨fun msg hmsg => LoopExit.noConfusion hmsg, h1, h2⟩
  | patienceBreak =>
    obtain ⟨h1, h2, h3⟩ := afterLoop_outcome_ok h
    exact ⟨fun msg hmsg => LoopExit.noConfusion hmsg, h1, h2⟩

lemma finishRun_outcome_raised {s : ℕ × Option ℚ} {r : LoopSt × LoopExit} {msg : String}
    (h : (finishRun s r).outcome = ImplOutcome.raised msg) :
    r.2 = LoopExit.raised msg ∧ (finishRun s r).sink = r.1.sink := by
  rcases r with ⟨st, ex⟩
  cases ex with
  | raised m =>
    injection h with h
    exact ⟨by rw [h], rfl⟩
  | maxReached =>
    exfalso
    unfold finishRun afterLoop at h
    dsimp only at h
    cases hle : st.lastEpoch with
    | none => rw [hle] at h; cases h
    | some k => rw [hle] at h; cases h
  | patienceBreak =>
    exfalso
    unfold finishRun afterLoop at h
    dsimp only at h
    cases hle : st.lastEpoch with
    | none => rw [hle] at h; cases h
    | some k => rw [hle] at h; cases h

/-! ### Facts about reload_model -/

lemma reload_model_ok_fs {fs : FS} {sfs : Bool} {so : Option Stats} {fs1 : FS} {ld : Bool}
    (h : reload_model fs sfs = Except.ok (so, fs1, ld)) :
    fs1.statsFile = fs.statsFile ∧ fs1.savedModel = fs.savedModel := by
  unfold reload_model at h
  split_ifs at h with h1 h2 h3
  · simp only [Except.ok.injEq, Prod.mk.injEq] at h
    obtain ⟨-, h4, -⟩ := h
    rw [← h4]; exact ⟨rfl, rfl⟩
  · unfold load_stats at h
    cases hsf : fs.statsFile with
    | none => rw [hsf] at h; cases h
    | some s0 =>
      rw [hsf] at h
      simp only [Except.ok.injEq, Prod.mk.injEq] at h
      obtain ⟨-, h4, -⟩ := h
      rw [← h4]; exact ⟨hsf, rfl⟩
  · simp only [Except.ok.injEq, Prod.mk.injEq] at h
    obtain ⟨-, h4, -⟩ := h
    rw [← h4]; exact ⟨rfl, rfl⟩
  · simp only [Except.ok.injEq, Prod.mk.injEq] at h
    obtain ⟨-, h4, -⟩ := h
    rw [← h4]; exact ⟨rfl, rfl⟩

lemma reload_model_ok_some {fs : FS} {sfs : Bool} {s : Stats} {fs1 : FS} {ld : Bool}
    (h : reload_model fs sfs = Except.ok (some s, fs1, ld)) :
    (fs.savedModel).isSome = true ∧ fs.statsFile = some s := by
  unfold reload_model at h
  split_ifs at h with h1 h2 h3
  · simp at h
  · unfold load_stats at h
    cases hsf : fs.statsFile with
    | none => rw [hsf] at h; cases h
    | some s0 =>
      rw [hsf] at h
      simp only [Except.ok.injEq, Prod.mk.injEq] at h
      obtain ⟨h4, -, -⟩ := h
      exact ⟨h2, h4⟩
  · simp at h
  · simp at h

/-! ### Facts about implRun -/

lemma implRun_cases (orc : Oracle) (p me : ℕ) (fs : FS) (sfs : Bool) :
    (∃ e, reload_model fs sfs = Except.error e ∧
       implRun orc p me fs sfs = ⟨(0, none), [], [], none, fs, ImplOutcome.reloadError e⟩) ∨
    (∃ so fs1 ld, reload_model fs sfs = Except.ok (so, fs1, ld) ∧
       implRun orc p me fs sfs =
         finishRun (startOf so)
           (loopGo orc p (me - (startOf so).1) (startOf so).1 (initSt so fs1))) := by
  unfold implRun
  cases hre : reload_model fs sfs with
  | error e => exact Or.inl ⟨e, rfl, rfl⟩
  | ok trip =>
    rcases trip with ⟨so, fs1, ld⟩
    exact Or.inr ⟨so, fs1, ld, rfl, rfl⟩

lemma implRun_good (orc : Oracle) (p me : ℕ) (fs : FS) (sfs : Bool) :
    ∀ l ∈ (implRun orc p me fs sfs).logs,
      GoodEntry orc (implRun orc p me fs sfs).start.2 l := by
  rcases implRun_cases orc p me fs sfs with ⟨e, hre, heq⟩ | ⟨so, fs1, ld, hre, heq⟩
  · rw [heq]; intro l hl; cases hl
  · rw [heq]
    intro l hl
    rw [finishRun_logs] at hl
    rw [finishRun_start]
    rcases loopGo_mem orc p _ _ _ l hl with h | h
    · cases h
    · exact h

lemma implRun_streak (orc : Oracle) (p me : ℕ) (fs : FS) (sfs : Bool) :
    ∀ l ∈ ((implRun orc p me fs sfs).logs).dropLast, l.streakAfter < p := by
  rcases implRun_cases orc p me fs sfs with ⟨e, hre, heq⟩ | ⟨so, fs1, ld, hre, heq⟩
  · rw [heq]; intro l hl; cases hl
  · rw [heq]
    intro l hl
    rw [finishRun_logs] at hl
    exact loopGo_streak orc p _ _ (initSt so fs1) (by intro l2 hl2; cases hl2) l hl

lemma implRun_lastWritten (orc : Oracle) (p me : ℕ) (fs : FS) (sfs : Bool) :
    ∀ l, ((implRun orc p me fs sfs).logs).getLast? = some l →
      (implRun orc p me fs sfs).fs.statsFile = some l.written ∧
      l.written.best_dev_metric = (implRun orc p me fs sfs).best ∧
      ((implRun orc p me fs sfs).fs.savedModel).isSome = true := by
  rcases implRun_cases orc p me fs sfs with ⟨e, hre, heq⟩ | ⟨so, fs1, ld, hre, heq⟩
  · rw [heq]; intro l hl; cases hl
  · rw [heq]
    intro l hl
    rw [finishRun_logs] at hl
    rw [finishRun_fs, finishRun_best]
    have h1 := loopGo_lastWritten orc p (me - (startOf so).1) (startOf so).1
      (initSt so fs1) (by intro l2 hl2; cases hl2) l hl
    refine ⟨h1.1, h1.2, ?_⟩
    have hbminv : BestModelInv (initSt so fs1) := by
      cases hso : so with
      | none => intro hb; simp [initSt, startOf, hso] at hb
      | some s =>
        intro _
        show (fs1.savedModel).isSome = true
        rw [(reload_model_ok_fs hre).2]
        exact (reload_model_ok_some (hso ▸ hre)).1
    apply loopGo_bestModel orc p _ _ (initSt so fs1) hbminv
    rw [← h1.2]
    have hmem := List.mem_of_mem_getLast? hl
    rcases loopGo_mem orc p _ _ _ l hmem with h2 | h2
    · cases h2
    · exact h2.2.2.2.2.1

lemma implRun_ok {orc : Oracle} {p me : ℕ} {fs : FS} {sfs : Bool} {stop : StopReason}
    (h : (implRun orc p me fs sfs).outcome = ImplOutcome.ok stop) :
    ((implRun orc p me fs sfs).best).isSome = true ∧
    ((implRun orc p me fs sfs).sink).getLast? =
      some ("best_dev_metric", (implRun orc p me fs sfs).best) := by
  rcases implRun_cases orc p me fs sfs with ⟨e, hre, heq⟩ | ⟨so, fs1, ld, hre, heq⟩
  · rw [heq] at h; cases h
  · rw [heq] at h ⊢
    obtain ⟨hnr, hle, hsink⟩ := finishRun_outcome_ok h
    rw [finishRun_best, hsink]
    refine ⟨?_, List.getLast?_concat _⟩
    rcases loopGo_ok_best orc p (me - (startOf so).1) (startOf so).1 (initSt so fs1)
        (by intro hc; cases hc) with ⟨msg, hmsg⟩ | hgood
    · exact absurd hmsg (hnr msg)
    · exact hgood hle

lemma implRun_raised_sink {orc : Oracle} {p me : ℕ} {fs : FS} {sfs : Bool} {msg : String}
    (h : (implRun orc p me fs sfs).outcome = ImplOutcome.raised msg) :
    ∀ ev ∈ (implRun orc p me fs sfs).sink, ev.1 = "dev_metric" ∨ ev.1 = "loss" := by
  rcases implRun_cases orc p me fs sfs with ⟨e, hre, heq⟩ | ⟨so, fs1, ld, hre, heq⟩
  · rw [heq] at h; cases h
  · rw [heq] at h ⊢
    obtain ⟨hexit, hsink⟩ := finishRun_outcome_raised h
    rw [hsink]
    exact loopGo_sink orc p _ _ (initSt so fs1) (by intro ev hev; cases hev)

lemma implRun_chain (orc : Oracle) (p me : ℕ) (fs : FS) (sfs : Bool) :
    List.Chain' optLE
      (writtenBests (implRun orc p me fs sfs).logs ++ [(implRun orc p me fs sfs).best]) := by
  rcases implRun_cases orc p me fs sfs with ⟨e, hre, heq⟩ | ⟨so, fs1, ld, hre, heq⟩
  · rw [heq]; exact List.chain'_singleton _
  · rw [heq, finishRun_logs, finishRun_best]
    exact loopGo_chain orc p _ _ (initSt so fs1) (List.chain'_singleton _)

lemma implRun_noWrites {orc : Oracle} {p me : ℕ} {fs : FS} {sfs : Bool}
    (h : (implRun orc p me fs sfs).logs = []) :
    (implRun orc p me fs sfs).fs.statsFile = fs.statsFile ∧
    (implRun orc p me fs sfs).fs.savedModel = fs.savedModel := by
  rcases implRun_cases orc p me fs sfs with ⟨e, hre, heq⟩ | ⟨so, fs1, ld, hre, heq⟩
  · rw [heq]; exact ⟨rfl, rfl⟩
  · rw [heq] at h ⊢
    rw [finishRun_logs] at h
    rw [finishRun_fs]
    have hsame := loopGo_same orc p (me - (startOf so).1) (startOf so).1 (initSt so fs1) h
    rw [hsame.1]
    obtain ⟨hsf, hsm⟩ := reload_model_ok_fs hre
    exact ⟨hsf, hsm⟩

lemma implRun_start_resume {fs : FS} {s : Stats} (orc : Oracle) (p me : ℕ)
    (hsm : (fs.savedModel).isSome = true) (hsf : fs.statsFile = some s) :
    (implRun orc p me fs false).start = (s.epoch, s.best_dev_metric) := by
  have hre : reload_model fs false = Except.ok (some s, fs, true) := by
    unfold reload_model load_stats
    rw [hsf, hsm]
    simp
  unfold implRun
  rw [hre]
  rw [finishRun_start]
  rfl

/-! ### Facts about train -/

lemma train_of_ok {orc : Oracle} {p me : ℕ} {fs : FS} {sfs orion : Bool} {stop : StopReason}
    (h : (implRun orc p me fs sfs).outcome = ImplOutcome.ok stop) :
    train orc p me fs sfs orion = Except.ok
      ⟨(implRun orc p me fs sfs).sink, (implRun orc p me fs sfs).best,
       ((implRun orc p me fs sfs).best).map (fun b => -b), (implRun orc p me fs sfs).fs⟩ := by
  simp only [train]
  rw [h]

lemma train_of_raised {orc : Oracle} {p me : ℕ} {fs : FS} {sfs orion : Bool} {msg : String}
    (h : (implRun orc p me fs sfs).outcome = ImplOutcome.raised msg) :
    train orc p me fs sfs orion =
      if orion && oomMessage msg then
        Except.ok ⟨(implRun orc p me fs sfs).sink, some (-999 : ℚ),
          (some (-999 : ℚ)).map (fun b => -b), (implRun orc p me fs sfs).fs⟩
      else Except.error (TrainError.RuntimeError msg) := by
  simp only [train]
  rw [h]

lemma train_of_nameError {orc : Oracle} {p me : ℕ} {fs : FS} {sfs orion : Bool}
    (h : (implRun orc p me fs sfs).outcome = ImplOutcome.nameError) :
    train orc p me fs sfs orion = Except.error TrainError.NameErrorEpochUnbound := by
  simp only [train]
  rw [h]

lemma train_of_reloadError {orc : Oracle} {p me : ℕ} {fs : FS} {sfs orion : Bool}
    {e : TrainError} (h : (implRun orc p me fs sfs).outcome = ImplOutcome.reloadError e) :
    train orc p me fs sfs orion = Except.error e := by
  simp only [train]
  rw [h]

lemma neg_map_sentinel : (some (-999 : ℚ)).map (fun b => -b) = some (999 : ℚ) := by
  norm_num

/-! ### Cross-run chain invariant -/

/-- Invariant tying the disk to the writes made so far: the written bests
chain upward, and when something has been written, stats.yaml holds
exactly the last written best and a saved model is on disk. -/
def DiskInv (fs : FS) (ws : List (Option ℚ)) : Prop :=
  List.Chain' optLE ws ∧
  (∀ w, ws.getLast? = some w →
    ∃ s, fs.statsFile = some s ∧ s.best_dev_metric = w ∧ (fs.savedModel).isSome = true)

lemma reload_model_resume {fs : FS} {s : Stats}
    (hsm : (fs.savedModel).isSome = true) (hsf : fs.statsFile = some s) :
    reload_model fs false = Except.ok (some s, fs, true) := by
  unfold reload_model load_stats
  rw [hsf, hsm]
  simp

lemma diskInv_step (orc : Oracle) (p me : ℕ) (fs : FS) (sfs : Bool)
    (ws : List (Option ℚ)) (hinv : DiskInv fs ws) (hsfs : sfs = false ∨ ws = []) :
    DiskInv (implRun orc p me fs sfs).fs
      (ws ++ writtenBests (implRun orc p me fs sfs).logs) := by
  constructor
  · rw [List.chain'_append]
    refine ⟨hinv.1, ?_, ?_⟩
    · have hc := implRun_chain orc p me fs sfs
      rw [List.chain'_append] at hc
      exact hc.1
    · intro x hx y hy
      have hws : ws ≠ [] := by
        intro hnil
        rw [hnil] at hx
        cases hx
      have hsfs2 : sfs = false := by
        rcases hsfs with h | h
        · exact h
        · exact absurd h hws
      subst hsfs2
      obtain ⟨s, hsf, hsb, hsm⟩ := hinv.2 x (Option.mem_def.mp hx)
      have hstart := implRun_start_resume orc p me hsm hsf
      have hym : y ∈ writtenBests (implRun orc p me fs false).logs :=
        List.mem_of_mem_head? hy
      obtain ⟨l, hlmem, hly⟩ := List.mem_map.mp hym
      have hgood := implRun_good orc p me fs false l hlmem
      have hle := hgood.2.2.2.2.2.2.2
      rw [hstart] at hle
      rw [← hly, ← hsb]
      exact hle
  · intro w hw
    by_cases hnew : writtenBests (implRun orc p me fs sfs).logs = []
    · rw [hnew, List.append_nil] at hw
      obtain ⟨s, hsf, hsb, hsm⟩ := hinv.2 w hw
      have hlogs : (implRun orc p me fs sfs).logs = [] := by
        rw [writtenBests] at hnew
        exact List.map_eq_nil_iff.mp hnew
      obtain ⟨hsf2, hsm2⟩ := implRun_noWrites hlogs
      refine ⟨s, by rw [hsf2]; exact hsf, hsb, by rw [hsm2]; exact hsm⟩
    · rw [List.getLast?_append_of_ne_nil _ hnew] at hw
      rw [writtenBests, List.getLast?_map] at hw
      obtain ⟨l, hl, hlw⟩ := Option.map_eq_some'.mp hw
      obtain ⟨hsf, hbd, hsm⟩ := implRun_lastWritten orc p me fs sfs l hl
      exact ⟨l.written, hsf, hlw, hsm⟩

lemma chainedWrites_inv :
    ∀ (segs : List Segment) (sfs : Bool) (fs : FS) (ws : List (Option ℚ)),
      DiskInv fs ws → (sfs = false ∨ ws = []) →
      List.Chain' optLE (ws ++ chainedWrites sfs segs fs) := by
  intro segs
  induction segs with
  | nil =>
    intro sfs fs ws hinv _
    simpa [chainedWrites] using hinv.1
  | cons seg rest ih =>
    intro sfs fs ws hinv hsfs
    simp only [chainedWrites]
    rw [← List.append_assoc]
    exact ih false (implRun seg.orc seg.patience seg.maxEpoch fs sfs).fs
      (ws ++ writtenBests (implRun seg.orc seg.patience seg.maxEpoch fs sfs).logs)
      (diskInv_step seg.orc seg.patience seg.maxEpoch fs sfs ws hinv hsfs)
      (Or.inl rfl)

/-! ### Concrete inputs for evaluation -/

/-- Oracle with a constant training loss and the given per-epoch dev
metrics (0 past the end of the list). -/
def orcConst (loss : ℚ) (metrics : List ℚ) : Oracle :=
  ⟨fun _ => Except.ok loss, fun e => metrics.getD e 0⟩

/-- The patience scenario of the spec: dev metrics 0.7, 0.7, 0.9. -/
def orcC2 : Oracle := orcConst 1 [mkRat 7 10, mkRat 7 10, mkRat 9 10]

/-- The max-epoch scenario of the spec: dev metrics 0.5, 0.6, 0.55. -/
def orcC3 : Oracle := orcConst 1 [mkRat 5 10, mkRat 6 10, mkRat 55 100]

/-- Oracle whose training phase raises a CUDA out-of-memory RuntimeError
at every epoch. -/
def orcBoom : Oracle := ⟨fun _ => Except.error "CUDA out of memory", fun _ => 0⟩

/-- An output location that does not exist yet. -/
def fs0 : FS := ⟨none, none, false⟩

/-! ### Claim theorems -/

lemma isImprovement_iff (best : Option ℚ) (dm : ℚ) :
    isImprovement best dm = true ↔ (best = none ∨ ∃ b, best = some b ∧ b < dm) := by
  cases best with
  | none => simp [isImprovement]
  | some b => simp [isImprovement]

/-- C1: every completed epoch e persists a state record whose epoch field
is e + 1, and a subsequent run over the same output location with
start_from_scratch = false begins its loop at that persisted epoch value
with best_dev_metric equal to the persisted value. -/
theorem C1_next_epoch_persisted_and_resume (orc orc2 : Oracle) (p me p2 me2 : ℕ)
    (fs : FS) (sfs : Bool) :
    (∀ l ∈ (implRun orc p me fs sfs).logs, l.written.epoch = l.epoch + 1) ∧
    (∀ l, ((implRun orc p me fs sfs).logs).getLast? = some l →
      (implRun orc2 p2 me2 (implRun orc p me fs sfs).fs false).start =
        (l.epoch + 1, l.written.best_dev_metric)) := by
  constructor
  · intro l hl
    exact (implRun_good orc p me fs sfs l hl).1
  · intro l hl
    obtain ⟨hsf, hbd, hsm⟩ := implRun_lastWritten orc p me fs sfs l hl
    have hstart := implRun_start_resume orc2 p2 me2 hsm hsf
    rw [hstart]
    have hep : l.written.epoch = l.epoch + 1 :=
      (implRun_good orc p me fs sfs l (List.mem_of_mem_getLast? hl)).1
    rw [hep]

/-- Witness for C1: the run on metrics 0.5, 0.6, 0.55 ends with last
entry for epoch 2 persisting epoch field 3, and the resumed run starts at
(3, best 0.6). -/
theorem C1_witness :
    ((implRun orcC3 5 3 fs0 false).logs).getLast? =
      some ⟨2, some (mkRat 6 10), mkRat 55 100, false, 1, ⟨some (mkRat 6 10), 3⟩⟩ ∧
    (implRun orcC3 5 3 ((implRun orcC3 5 3 fs0 false).fs) false).start =
      (3, some (mkRat 6 10)) :=
  ⟨by decide,
   (C1_next_epoch_persisted_and_resume orcC3 orcC3 5 3 5 3 fs0 false).2
     ⟨2, some (mkRat 6 10), mkRat 55 100, false, 1, ⟨some (mkRat 6 10), 3⟩⟩ (by decide)⟩

/-- C2: the loop never runs an epoch after the streak has reached the
patience (every non-final trace entry has streak below patience), and the
scenario patience 1 with dev metrics 0.7, 0.7, 0.9 stops after the second
epoch with best 0.7 by PatienceExhausted, never reaching epoch 2. -/
theorem C2_patience_stops_loop :
    (∀ (orc : Oracle) (p me : ℕ) (fs : FS) (sfs : Bool),
      ∀ l ∈ ((implRun orc p me fs sfs).logs).dropLast, l.streakAfter < p) ∧
    ((implRun orcC2 1 3 fs0 false).logs.map (fun l => l.epoch) = [0, 1] ∧
     (implRun orcC2 1 3 fs0 false).best = some (mkRat 7 10) ∧
     (implRun orcC2 1 3 fs0 false).outcome = ImplOutcome.ok StopReason.PatienceExhausted) :=
  ⟨implRun_streak, by decide⟩

/-- Witness for C2: the first entry of the patience scenario is a
non-final entry, and its streak is below the patience. -/
theorem C2_witness :
    (⟨0, none, mkRat 7 10, true, 0, ⟨some (mkRat 7 10), 1⟩⟩ : EpochLog) ∈
      ((implRun orcC2 1 3 fs0 false).logs).dropLast ∧
    (⟨0, none, mkRat 7 10, true, 0, ⟨some (mkRat 7 10), 1⟩⟩ : EpochLog).streakAfter < 1 :=
  ⟨by decide,
   C2_patience_stops_loop.1 orcC2 1 3 fs0 false
     ⟨0, none, mkRat 7 10, true, 0, ⟨some (mkRat 7 10), 1⟩⟩ (by decide)⟩

/-- C3: in every epoch the model is saved and the streak reset exactly
when best is absent or the dev metric strictly exceeds it (an equal
metric is no improvement), and the scenario max_epoch 3, patience 5 with
dev metrics 0.5, 0.6, 0.55 saves after epochs 0 and 1 only, ending at
best 0.6 by MaxEpochReached. -/
theorem C3_improvement_check (orcA : Oracle) (p me : ℕ) (fs : FS) (sfs : Bool) :
    (∀ l ∈ (implRun orcA p me fs sfs).logs,
      (l.saved = true ↔
        (l.bestBefore = none ∨ ∃ b, l.bestBefore = some b ∧ b < l.devMetric)) ∧
      (l.saved = true → l.streakAfter = 0) ∧
      (l.saved = false → 0 < l.streakAfter)) ∧
    ((implRun orcC3 5 3 fs0 false).logs.map (fun l => (l.epoch, l.saved)) =
        [(0, true), (1, true), (2, false)] ∧
     (implRun orcC3 5 3 fs0 false).best = some (mkRat 6 10) ∧
     (implRun orcC3 5 3 fs0 false).outcome = ImplOutcome.ok StopReason.MaxEpochReached) := by
  constructor
  · intro l hl
    obtain ⟨-, -, h3, -, -, h6, h7, -⟩ := implRun_good orcA p me fs sfs l hl
    refine ⟨?_, h6, h7⟩
    rw [h3]
    exact isImprovement_iff l.bestBefore l.devMetric
  · exact (by decide)

/-- Witness for C3: the epoch 1 entry of the max-epoch scenario is in the
trace, improved, and so has streak 0. -/
theorem C3_witness :
    (⟨1, some (mkRat 5 10), mkRat 6 10, true, 0, ⟨some (mkRat 6 10), 2⟩⟩ : EpochLog) ∈
      (implRun orcC3 5 3 fs0 false).logs ∧
    ((⟨1, some (mkRat 5 10), mkRat 6 10, true, 0, ⟨some (mkRat 6 10), 2⟩⟩ : EpochLog).saved
        = true →
      (⟨1, some (mkRat 5 10), mkRat 6 10, true, 0,
        ⟨some (mkRat 6 10), 2⟩⟩ : EpochLog).streakAfter = 0) :=
  ⟨by decide,
   ((C3_improvement_check orcC3 5 3 fs0 false).1
     ⟨1, some (mkRat 5 10), mkRat 6 10, true, 0, ⟨some (mkRat 6 10), 2⟩⟩ (by decide)).2.1⟩

/-- C4: across any sequence of process invocations over the same output
location, each one after the first resuming with start_from_scratch =
false, the best_dev_metric values written to the state record form a
nondecreasing list. -/
theorem C4_written_bests_monotone (sfs : Bool) (segs : List Segment) (fs : FS) :
    List.Chain' optLE (chainedWrites sfs segs fs) := by
  have h := chainedWrites_inv segs sfs fs []
    ⟨List.chain'_nil, by intro w hw; cases hw⟩ (Or.inr rfl)
  simpa using h

/-- C5: every train call that reaches final reporting reports to the
tuning client the negation of the best_dev_metric it achieved (present in
the outcome). -/
theorem C5_reported_is_negated_best (orc : Oracle) (p me : ℕ) (fs : FS)
    (sfs orion : Bool) (out : TrainOutcome)
    (h : train orc p me fs sfs orion = Except.ok out) :
    (out.best).isSome = true ∧ out.reported = (out.best).map (fun b => -b) := by
  cases ho : (implRun orc p me fs sfs).outcome with
  | ok stop =>
    rw [train_of_ok ho] at h
    injection h with h
    refine ⟨?_, ?_⟩
    · rw [← h]
      exact (implRun_ok ho).1
    · rw [← h]
  | raised msg =>
    rw [train_of_raised ho] at h
    by_cases hc : (orion && oomMessage msg) = true
    · rw [if_pos hc] at h
      injection h with h
      rw [← h]
      exact ⟨rfl, rfl⟩
    · rw [if_neg hc] at h
      cases h
  | nameError =>
    rw [train_of_nameError ho] at h
    cases h
  | reloadError e =>
    rw [train_of_reloadError ho] at h
    cases h

/-- Witness for C5: the max-epoch scenario run reports minus 0.6 for an
achieved best of 0.6. -/
theorem C5_witness :
    train orcC3 5 3 fs0 false false = Except.ok
      ⟨[("dev_metric", some (mkRat 5 10)), ("loss", some 1),
        ("dev_metric", some (mkRat 6 10)), ("loss", some 1),
        ("dev_metric", some (mkRat 55 100)), ("loss", some 1),
        ("best_dev_metric", some (mkRat 6 10))],
       some (mkRat 6 10), some (-(mkRat 6 10)),
       ⟨some 1, some ⟨some (mkRat 6 10), 3⟩, true⟩⟩ ∧
    ((some (mkRat 6 10) : Option ℚ)).isSome = true ∧
    (some (-(mkRat 6 10)) : Option ℚ) = (some (mkRat 6 10) : Option ℚ).map (fun b => -b) :=
  ⟨by decide,
   C5_reported_is_negated_best orcC3 5 3 fs0 false false
     ⟨[("dev_metric", some (mkRat 5 10)), ("loss", some 1),
       ("dev_metric", some (mkRat 6 10)), ("loss", some 1),
       ("dev_metric", some (mkRat 55 100)), ("loss", some 1),
       ("best_dev_metric", some (mkRat 6 10))],
      some (mkRat 6 10), some (-(mkRat 6 10)),
      ⟨some 1, some ⟨some (mkRat 6 10), 3⟩, true⟩⟩ (by decide)⟩

/-- C6: a RuntimeError raised during the training phase is recovered
exactly when orion is on and the message contains CUDA out of memory, in
which case best becomes the sentinel -999 and the run reports 999;
otherwise it propagates, as do the reload error and the post-loop
NameError. -/
theorem C6_oom_caught_only_with_orion (orc : Oracle) (p me : ℕ) (fs : FS)
    (sfs orion : Bool) :
    (∀ msg, (implRun orc p me fs sfs).outcome = ImplOutcome.raised msg →
      ((orion = true ∧ oomMessage msg = true) →
        train orc p me fs sfs orion = Except.ok
          ⟨(implRun orc p me fs sfs).sink, some (-999 : ℚ), some (999 : ℚ),
           (implRun orc p me fs sfs).fs⟩) ∧
      (¬(orion = true ∧ oomMessage msg = true) →
        train orc p me fs sfs orion = Except.error (TrainError.RuntimeError msg))) ∧
    (∀ e, (implRun orc p me fs sfs).outcome = ImplOutcome.reloadError e →
      train orc p me fs sfs orion = Except.error e) ∧
    ((implRun orc p me fs sfs).outcome = ImplOutcome.nameError →
      train orc p me fs sfs orion = Except.error TrainError.NameErrorEpochUnbound) := by
  refine ⟨?_, ?_, ?_⟩
  · intro msg ho
    constructor
    · rintro ⟨h1, h2⟩
      rw [train_of_raised ho, if_pos (by rw [h1, h2]; rfl)]
      rw [neg_map_sentinel]
    · intro hne
      rw [train_of_raised ho, if_neg (fun hc => hne (Bool.and_eq_true_iff.mp hc))]
  · intro e ho
    exact train_of_reloadError ho
  · intro ho
    exact train_of_nameError ho

/-- Witness for C6: the always-OOM oracle is caught with orion on
(sentinel reported) and propagates with orion off. -/
theorem C6_witness :
    (implRun orcBoom 1 1 fs0 false).outcome = ImplOutcome.raised "CUDA out of memory" ∧
    train orcBoom 1 1 fs0 false true =
      Except.ok ⟨[], some (-999 : ℚ), some (999 : ℚ), ⟨none, none, true⟩⟩ ∧
    train orcBoom 1 1 fs0 false false =
      Except.error (TrainError.RuntimeError "CUDA out of memory") := by
  refine ⟨by decide, ?_, ?_⟩
  · exact ((C6_oom_caught_only_with_orion orcBoom 1 1 fs0 false true).1
      "CUDA out of memory" (by decide)).1 ⟨rfl, by decide⟩
  · exact ((C6_oom_caught_only_with_orion orcBoom 1 1 fs0 false false).1
      "CUDA out of memory" (by decide)).2
      (by rintro ⟨h1, -⟩; cases h1)

/-- C7 counterexample: a run that ends through the tuning-active
out-of-memory substitution reports the sentinel objective, yet its
emission list is empty, so no best_dev_metric value reaches the metrics
sink (the emission at line 156 sits inside pytorch_train_impl, which the
exception has already left). -/
theorem C7_counterexample :
    pytorch_train_impl orcBoom 1 1 fs0 false =
      Except.error (TrainError.RuntimeError "CUDA out of memory") ∧
    train orcBoom 1 1 fs0 false true =
      Except.ok ⟨[], some (-999 : ℚ), some (999 : ℚ), ⟨none, none, true⟩⟩ := by
  exact ⟨by decide, by decide⟩

/-- C7 amended: runs ending by MaxEpochReached or PatienceExhausted emit
the achieved best_dev_metric to the metrics sink as their last emission
under its distinct name; in the tuning-active out-of-memory substitution
the sentinel is reported to the tuning client but nothing named
best_dev_metric is ever emitted to the metrics sink. -/
theorem C7_best_metric_emission (orc : Oracle) (p me : ℕ) (fs : FS)
    (sfs orion : Bool) :
    (∀ stop, (implRun orc p me fs sfs).outcome = ImplOutcome.ok stop →
      ((implRun orc p me fs sfs).sink).getLast? =
        some ("best_dev_metric", (implRun orc p me fs sfs).best) ∧
      train orc p me fs sfs orion = Except.ok
        ⟨(implRun orc p me fs sfs).sink, (implRun orc p me fs sfs).best,
         ((implRun orc p me fs sfs).best).map (fun b => -b),
         (implRun orc p me fs sfs).fs⟩) ∧
    (∀ msg, (implRun orc p me fs sfs).outcome = ImplOutcome.raised msg →
      orion = true → oomMessage msg = true →
      train orc p me fs sfs orion = Except.ok
        ⟨(implRun orc p me fs sfs).sink, some (-999 : ℚ), some (999 : ℚ),
         (implRun orc p me fs sfs).fs⟩ ∧
      ∀ v, (("best_dev_metric", v) : SinkEvent) ∉ (implRun orc p me fs sfs).sink) := by
  constructor
  · intro stop ho
    exact ⟨(implRun_ok ho).2, train_of_ok ho⟩
  · intro msg ho h1 h2
    constructor
    · rw [train_of_raised ho, if_pos (by rw [h1, h2]; rfl)]
      rw [neg_map_sentinel]
    · intro v hv
      rcases implRun_raised_sink ho ("best_dev_metric", v) hv with h | h <;> simp at h

/-- Witness for C7: the max-epoch scenario ends normally and its last
emission is best_dev_metric 0.6. -/
theorem C7_witness :
    (implRun orcC3 5 3 fs0 false).outcome = ImplOutcome.ok StopReason.MaxEpochReached ∧
    ((implRun orcC3 5 3 fs0 false).sink).getLast? =
      some ("best_dev_metric", (implRun orcC3 5 3 fs0 false).best) :=
  ⟨by decide,
   ((C7_best_metric_emission orcC3 5 3 fs0 false false).1
     StopReason.MaxEpochReached (by decide)).1⟩

/-- C8: when the saved-model artifact exists but the state record is
absent, initialization fails with the state-missing error, which
propagates unchanged through pytorch_train_impl and train. -/
theorem C8_missing_stats_error (orc : Oracle) (p me : ℕ) (fs : FS) (orion : Bool)
    (m : ℕ) (hm : fs.savedModel = some m) (hsf : fs.statsFile = none) :
    reload_model fs false = Except.error TrainError.StateMissingError ∧
    pytorch_train_impl orc p me fs false = Except.error TrainError.StateMissingError ∧
    train orc p me fs false orion = Except.error TrainError.StateMissingError := by
  have hre : reload_model fs false = Except.error TrainError.StateMissingError := by
    unfold reload_model load_stats
    rw [hm, hsf]
    simp
  have ho : (implRun orc p me fs false).outcome =
      ImplOutcome.reloadError TrainError.StateMissingError := by
    unfold implRun
    rw [hre]
  refine ⟨hre, ?_, train_of_reloadError ho⟩
  simp only [pytorch_train_impl]
  rw [ho]

/-- Witness for C8: a disk with best_model.pt present and stats.yaml
absent makes both initialization and the whole run fail with the
state-missing error. -/
theorem C8_witness :
    reload_model ⟨some 0, none, true⟩ false = Except.error TrainError.StateMissingError ∧
    train orcC2 1 3 ⟨some 0, none, true⟩ false false =
      Except.error TrainError.StateMissingError :=
  ⟨(C8_missing_stats_error orcC2 1 3 ⟨some 0, none, true⟩ false 0 rfl rfl).1,
   (C8_missing_stats_error orcC2 1 3 ⟨some 0, none, true⟩ false 0 rfl rfl).2.2⟩

/-- C9: with start_from_scratch = true and a saved model present,
initialization returns no prior state, hands back the disk record
untouched, does not load the model, and the run starts at epoch 0 with
best absent. -/
theorem C9_fresh_start_leaves_disk (orc : Oracle) (p me : ℕ) (fs : FS) (m : ℕ)
    (hm : fs.savedModel = some m) :
    reload_model fs true = Except.ok (none, fs, false) ∧
    (implRun orc p me fs true).start = (0, none) := by
  have hre : reload_model fs true = Except.ok (none, fs, false) := by
    unfold reload_model
    rw [hm]
    simp
  refine ⟨hre, ?_⟩
  unfold implRun
  rw [hre]
  rw [finishRun_start]
  rfl

/-- Witness for C9: a populated output directory is handed back untouched
on a forced fresh start. -/
theorem C9_witness :
    reload_model ⟨some 7, some ⟨some (mkRat 9 10), 4⟩, true⟩ true =
      Except.ok (none, ⟨some 7, some ⟨some (mkRat 9 10), 4⟩, true⟩, false) ∧
    (implRun orcC2 1 3 ⟨some 7, some ⟨some (mkRat 9 10), 4⟩, true⟩ true).start =
      (0, none) :=
  C9_fresh_start_leaves_disk orcC2 1 3 ⟨some 7, some ⟨some (mkRat 9 10), 4⟩, true⟩ 7 rfl

/-- C10: a resumed run whose loaded state record has epoch at or past
max_epoch executes no epoch, and the post-loop log line fails with
NameError (the loop variable was never bound) instead of returning the
stored best and reporting it; the NameError propagates through train. -/
theorem C10_resume_at_or_past_max_crashes (orc : Oracle) (p me : ℕ) (fs : FS)
    (orion : Bool) (s : Stats) (m : ℕ) (hm : fs.savedModel = some m)
    (hsf : fs.statsFile = some s) (hme : me ≤ s.epoch) :
    (implRun orc p me fs false).logs = [] ∧
    pytorch_train_impl orc p me fs false = Except.error TrainError.NameErrorEpochUnbound ∧
    train orc p me fs false orion = Except.error TrainError.NameErrorEpochUnbound := by
  have hsm : (fs.savedModel).isSome = true := by rw [hm]; rfl
  have himpl : implRun orc p me fs false =
      ⟨(s.epoch, s.best_dev_metric), [], [], s.best_dev_metric, fs,
       ImplOutcome.nameError⟩ := by
    unfold implRun
    rw [reload_model_resume hsm hsf]
    show finishRun (startOf (some s))
        (loopGo orc p (me - s.epoch) s.epoch (initSt (some s) fs)) = _
    rw [Nat.sub_eq_zero_of_le hme]
    rfl
  refine ⟨by rw [himpl], ?_, ?_⟩
  · simp only [pytorch_train_impl]
    rw [himpl]
  · simp only [train]
    rw [himpl]

/-- Witness for C10: resuming with a stored epoch of 3 under max_epoch 3
runs nothing and raises NameError. -/
theorem C10_witness :
    (implRun orcC2 1 3 ⟨some 2, some ⟨some (mkRat 6 10), 3⟩, true⟩ false).logs = [] ∧
    pytorch_train_impl orcC2 1 3 ⟨some 2, some ⟨some (mkRat 6 10), 3⟩, true⟩ false =
      Except.error TrainError.NameErrorEpochUnbound ∧
    train orcC2 1 3 ⟨some 2, some ⟨some (mkRat 6 10), 3⟩, true⟩ false false =
      Except.error TrainError.NameErrorEpochUnbound :=
  C10_resume_at_or_past_max_crashes orcC2 1 3 ⟨some 2, some ⟨some (mkRat 6 10), 3⟩, true⟩
    false ⟨some (mkRat 6 10), 3⟩ 2 rfl rfl (by decide)

end TrainPy
